import Mathlib

/-!
# Commander: context-retrieval-and-decision pipeline, shallow embedding

A shallow embedding of the core of the Commander repository
(`src/backend/`): the Qdrant-backed context store (`vector_store.py`,
`context_storage.py`), the action lifecycle (`orchestrator.py`), the
execution dispatcher (`tools.py`) and the tool-call parser (`llm.py`),
together with theorems settling the frozen claims about them.

Modelling conventions:

* Python dicts with string keys are association lists `List (String × PyVal)`
  (Python dict keys are unique; our lookups take the first occurrence).
* Machine floats that only flow through the code unchanged (confidence,
  similarity scores) are modelled as `Rat`; no float arithmetic occurs in
  the modelled code paths.
* External I/O boundaries (the embedding provider, the Qdrant
  vector-index ranking, the LLM) are oracles passed as function
  parameters; theorems quantify over them.
* Python exceptions are `Except` values; a function body with no
  `try/except` propagates them monadically, exactly as the source does.
* The repository is mid-refactor towards multi-tenancy: several call
  sites pass arguments their callee cannot bind (a `TypeError` at
  runtime), and `vector_store._payload_to_context` omits the (required)
  `user_id` field of `ContextItem` (a pydantic `ValidationError` on
  every retrieval hit).  The `*_runtime` definitions model these
  raising behaviors exactly as the source has them; the total
  `payload_to_context` keeps the same lines' field mapping for
  store-shape reasoning, reading the missing owner as `""`.
* The action-storage module `src/backend/storage.py` is imported by
  `orchestrator.py`, `context_storage.py` and `api.py` but is absent
  from `src/`; its operations are modelled from the spec (each marked
  `Modelled from the spec:`).
-/

/-- A Python value as it occurs in the modelled payload/result dicts. -/
inductive PyVal where
  | vBool (b : Bool)
  | vStr (s : String)
  | vNum (q : Rat)
  | vNone
  deriving DecidableEq, Repr

/-- Python truthiness of a `PyVal` (as used by `dict.get(key, False)`
checks in `tools.py`). -/
def PyVal.truthy : PyVal → Bool
  | .vBool b => b
  | .vStr s => s ≠ ""
  | .vNum q => q ≠ 0
  | .vNone => false

/-- A Python dict with string keys. -/
abbrev PyDict := List (String × PyVal)

/-- `d.get(k)` / `d[k]`: first binding of `k`. -/
def dictGet (d : PyDict) (k : String) : Option PyVal :=
  (d.find? (fun kv => kv.1 = k)).map Prod.snd

/-- `d.get(k, default)`. -/
def dictGetD (d : PyDict) (k : String) (dflt : PyVal) : PyVal :=
  (dictGet d k).getD dflt

/-- `k in d`. -/
def dictHasKey (d : PyDict) (k : String) : Bool :=
  (dictGet d k).isSome

/-- Remove a key from a dict (the effect of `d.pop(k, default)` on `d`). -/
def dictErase (d : PyDict) (k : String) : PyDict :=
  d.filter (fun kv => kv.1 ≠ k)

/-- A Python exception crossing a modelled boundary. -/
inductive PyExn where
  | typeError (msg : String)
  | valueError (msg : String)
  | validationError (msg : String)
  | toolError (msg : String)
  deriving DecidableEq, Repr

/-- Python `str + x`: succeeds only when both operands are strings
(otherwise `TypeError`), as in the error-message concatenation of
`tools.execute_tool`. -/
def pyStrAdd : PyVal → PyVal → Except PyExn String
  | .vStr a, .vStr b => .ok (a ++ b)
  | _, _ => .error (.typeError "can only concatenate str to str")

/-- Python `float(x)` for the values that occur as `confidence`
arguments.  (Numeric strings would also convert in Python; no modelled
code path depends on that case, so it is conservatively an error.) -/
def pyFloat : PyVal → Except PyExn Rat
  | .vNum q => .ok q
  | .vBool b => .ok (if b then 1 else 0)
  | _ => .error (.typeError "could not convert value to float")

/-! ## Enums (`models.py`) -/

/-- `models.SourceType`. -/
inductive SourceType where
  | gmail
  | slack
  | meeting_transcript
  | calendar_event
  deriving DecidableEq, Repr

/-- The `.value` string of a `SourceType` member. -/
def SourceType.value : SourceType → String
  | .gmail => "gmail"
  | .slack => "slack"
  | .meeting_transcript => "meeting_transcript"
  | .calendar_event => "calendar_event"

/-- `models.ActionType`. -/
inductive ActionType where
  | gmail_send_email
  | gmail_create_draft
  | schedule_meeting
  | create_todo
  | create_repository
  | create_issue
  | create_branch
  | create_pull_request
  | merge_pull_request
  | update_issue
  | slack_send_message
  | slack_reply_to_thread
  | slack_add_reaction
  | slack_upload_file
  deriving DecidableEq, Repr

/-- The `.value` string of an `ActionType` member (note
`SLACK_SEND_MESSAGE = "slack_post_message"`). -/
def ActionType.value : ActionType → String
  | .gmail_send_email => "gmail_send_email"
  | .gmail_create_draft => "gmail_create_draft"
  | .schedule_meeting => "schedule_meeting"
  | .create_todo => "create_todo"
  | .create_repository => "create_repository"
  | .create_issue => "create_issue"
  | .create_branch => "create_branch"
  | .create_pull_request => "create_pull_request"
  | .merge_pull_request => "merge_pull_request"
  | .update_issue => "update_issue"
  | .slack_send_message => "slack_post_message"
  | .slack_reply_to_thread => "slack_reply_to_thread"
  | .slack_add_reaction => "slack_add_reaction"
  | .slack_upload_file => "slack_upload_file"

/-- All members of `ActionType`, in declaration order. -/
def ActionType.members : List ActionType :=
  [.gmail_send_email, .gmail_create_draft, .schedule_meeting, .create_todo,
   .create_repository, .create_issue, .create_branch, .create_pull_request,
   .merge_pull_request, .update_issue,
   .slack_send_message, .slack_reply_to_thread, .slack_add_reaction,
   .slack_upload_file]

/-- `ActionType(name)`: Python enum lookup by value; raises `ValueError`
when no member has that value. -/
def ActionType.ofValue (name : String) : Except PyExn ActionType :=
  match ActionType.members.find? (fun t => t.value = name) with
  | some t => .ok t
  | none => .error (.valueError (name ++ " is not a valid ActionType"))

/-! ## Data model (`models.py`) -/

/-- `models.ContextItem`.  Timestamps are modelled as `Nat` (isoformat
strings compare chronologically). -/
structure ContextItem where
  id : String
  source_type : SourceType
  source_id : String
  timestamp : Nat
  created_at : Nat
  user_id : String
  content : PyDict
  context_text : String
  sender : Option String
  summary : Option String
  processed : Bool
  deriving DecidableEq, Repr

/-- `models.ProposedAction.status` ∈ {pending, executed, skipped, error}
(the `Literal` type; `ExecutionResult.status` uses the non-`pending`
subset). -/
inductive ActionStatus where
  | pending
  | executed
  | skipped
  | error
  deriving DecidableEq, Repr

/-- `models.ProposedAction` (fields relevant to the modelled core;
`created_at` and the display-only `result` timestamp are dropped). -/
structure ProposedAction where
  id : Int
  context_id : String
  user_id : String
  type : ActionType
  payload : PyDict
  confidence : Rat
  status : ActionStatus
  source_type : SourceType
  sender : Option String
  summary : Option String
  result : PyDict
  deriving DecidableEq, Repr

/-- `models.ExecutionResult` (the `executed_at` wall-clock string is
dropped). -/
structure ExecutionResult where
  action_id : Int
  status : ActionStatus
  result : PyDict
  deriving DecidableEq, Repr

/-! ## Vector store (`vector_store.py`) -/

/-- The Qdrant payload written by `vector_store._context_to_payload`.
Note: the source stores `id`, `source_type`, `source_id`, `timestamp`,
`created_at`, `content`, `context_text`, `sender`, `summary`,
`processed` — and does NOT store `user_id`, although `ContextItem` has
that field. -/
structure QdrantPayload where
  id : String
  source_type : SourceType
  source_id : String
  timestamp : Nat
  created_at : Nat
  content : PyDict
  context_text : String
  sender : Option String
  summary : Option String
  processed : Bool
  deriving DecidableEq, Repr

/-- `vector_store._context_to_payload`. -/
def context_to_payload (c : ContextItem) : QdrantPayload :=
  { id := c.id
    source_type := c.source_type
    source_id := c.source_id
    timestamp := c.timestamp
    created_at := c.created_at
    content := c.content
    context_text := c.context_text
    sender := c.sender
    summary := c.summary
    processed := c.processed }

/-- The field mapping of `vector_store._payload_to_context`.  The source
does not pass `user_id` to the `ContextItem` constructor (the payload
has no such field), so at runtime every call raises pydantic
`ValidationError` — see `payload_to_context_runtime`; this totalized
reading, with the missing owner as `""`, serves the store-shape
reasoning of the lookup claims. -/
def payload_to_context (p : QdrantPayload) : ContextItem :=
  { id := p.id
    source_type := p.source_type
    source_id := p.source_id
    timestamp := p.timestamp
    created_at := p.created_at
    user_id := ""
    content := p.content
    context_text := p.context_text
    sender := p.sender
    summary := p.summary
    processed := p.processed }

/-- An embedding vector (opaque to the modelled code). -/
abbrev Embedding := List Rat

/-- A Qdrant point: id, vector, payload. -/
structure QdrantPoint where
  pid : String
  vector : Embedding
  payload : QdrantPayload
  deriving DecidableEq, Repr

/-- The Qdrant collection state, in insertion order. -/
abbrev QdrantStore := List QdrantPoint

/-- `QdrantVectorStore.upsert`: insert the point, or fully replace the
point with the same id (Qdrant upsert-by-point-id semantics). -/
def QdrantVectorStore.upsert (s : QdrantStore) (c : ContextItem)
    (embedding : Embedding) : QdrantStore :=
  let point : QdrantPoint :=
    { pid := c.id, vector := embedding, payload := context_to_payload c }
  if s.any (fun q => q.pid = point.pid) then
    s.map (fun q => if q.pid = point.pid then point else q)
  else
    s ++ [point]

/-- The scroll filter of `get_by_source_id`: `source_id` must match, and
`source_type` must match when the optional filter is given. -/
def sourceIdFilter (source_id : String) (source_type : Option SourceType)
    (p : QdrantPoint) : Bool :=
  p.payload.source_id = source_id &&
    match source_type with
    | some st => p.payload.source_type = st
    | none => true

/-- `QdrantVectorStore.get_by_source_id`: scroll with the
`(source_id, source_type)` filter, `limit=1`.  No owner condition: the
payload carries no owner and none is asked for. -/
def QdrantVectorStore.get_by_source_id (s : QdrantStore) (source_id : String)
    (source_type : Option SourceType := none) : Option ContextItem :=
  ((s.filter (sourceIdFilter source_id source_type)).head?).map
    (fun p => payload_to_context p.payload)

/-- `QdrantVectorStore.check_exist`. -/
def QdrantVectorStore.check_exist (s : QdrantStore) (source_id : String)
    (source_type : SourceType) : Bool :=
  (QdrantVectorStore.get_by_source_id s source_id (some source_type)).isSome

/-- `QdrantVectorStore.update_processed`: `set_payload` of
`{"processed": processed}` on the point with the given id. -/
def QdrantVectorStore.update_processed (s : QdrantStore) (context_id : String)
    (processed : Bool := true) : QdrantStore :=
  s.map (fun q =>
    if q.pid = context_id then
      { q with payload := { q.payload with processed := processed } }
    else q)

/-- The scalar filter of `search_similar` / `list_contexts`. -/
def scalarFilter (source_type : Option SourceType) (processed : Option Bool)
    (p : QdrantPoint) : Bool :=
  (match source_type with
   | some st => p.payload.source_type = st
   | none => true) &&
  (match processed with
   | some b => p.payload.processed = b
   | none => true)

/-- The Qdrant vector index's ranking of the filtered points for a query
embedding is implementation-defined; it is an oracle consumed by
`search_similar`. -/
abbrev QueryOracle :=
  QdrantStore → Embedding → Nat → Option Rat → List (QdrantPoint × Rat)

/-- `QdrantVectorStore.search_similar`: `query_points` with the scalar
filter, then payload→context conversion.  The ranked result list comes
from the oracle `q` (applied to the filtered collection). -/
def QdrantVectorStore.search_similar (q : QueryOracle) (s : QdrantStore)
    (embedding : Embedding) (limit : Nat)
    (score_threshold : Option Rat := none)
    (source_type : Option SourceType := none)
    (processed : Option Bool := none) :
    List (ContextItem × Rat) :=
  (q (s.filter (scalarFilter source_type processed)) embedding limit
     score_threshold).map
    (fun pr => (payload_to_context pr.1.payload, pr.2))

/-- `QdrantVectorStore.list_contexts`: scroll with the scalar filter,
ordered by `timestamp` (descending when `order_desc`), truncated to
`limit`. -/
def QdrantVectorStore.list_contexts (s : QdrantStore) (limit : Nat)
    (source_type : Option SourceType := none)
    (processed : Option Bool := none)
    (order_desc : Bool := true) : List ContextItem :=
  let filtered := s.filter (scalarFilter source_type processed)
  let sorted :=
    if order_desc then
      filtered.mergeSort (fun a b => a.payload.timestamp ≥ b.payload.timestamp)
    else
      filtered.mergeSort (fun a b => a.payload.timestamp ≤ b.payload.timestamp)
  (sorted.take limit).map (fun p => payload_to_context p.payload)

/-! ## Action storage (`src/backend/storage.py`, absent from src/)

`orchestrator.py`, `context_storage.py` and `api.py` import
`get_action`, `save_action`, `update_action_status`, `list_actions`,
`get_actions_for_context` and `get_next_action_id` from
`src/backend/storage.py`, which is not present under `src/`.  These
operations are modelled from the spec.  The spec threads `owner`
explicitly ("pass `owner` as an explicit parameter", §9) where the
source threads it through the ambient request context set by
`auth.get_current_user`; the `user_id` parameter below stands for that
ambient owner. -/

/-- The action store state: the persisted rows. -/
abbrev ActionDb := List ProposedAction

/-- Modelled from the spec: `storage.get_action` — owner-scoped point
lookup ("every read/write is scoped by owner; cross-owner visibility is
forbidden"); returns the action only when it exists for that owner. -/
def get_action (db : ActionDb) (user_id : String) (action_id : Int) :
    Option ProposedAction :=
  db.find? (fun a => a.id = action_id && a.user_id = user_id)

/-- Modelled from the spec: `storage.save_action` — persist a proposed
action row. -/
def save_action (db : ActionDb) (a : ProposedAction) : ActionDb :=
  db ++ [a]

/-- Modelled from the spec: `storage.update_action_status` — set the
status field of the owner's action row and return the updated record
(`None` when no such row exists for that owner). -/
def update_action_status (db : ActionDb) (user_id : String)
    (action_id : Int) (status : ActionStatus) :
    ActionDb × Option ProposedAction :=
  let db' := db.map (fun a =>
    if a.id = action_id && a.user_id = user_id then { a with status := status }
    else a)
  (db', get_action db' user_id action_id)

/-- Modelled from the spec: `storage.get_actions_for_context` — the
owner's actions referencing a context id. -/
def get_actions_for_context (db : ActionDb) (user_id : String)
    (context_id : String) : List ProposedAction :=
  db.filter (fun a => a.context_id = context_id && a.user_id = user_id)

/-! ## Execution dispatcher (`tools.py`) -/

/-- A value returned by a tool callable's `ainvoke`: our tools return a
dict, MCP tools return a dict or a bare string, anything else is an
invalid shape. -/
inductive ToolResult where
  | dict (d : PyDict)
  | str (s : String)
  | other
  deriving DecidableEq, Repr

/-- A registered executor: `ainvoke(payload)`.  An invocation may raise
(connectivity/auth failures), which the modelled dispatcher body does
not catch. -/
abbrev Executor := PyDict → Except PyExn ToolResult

/-- The registry `get_all_tools` assembles per user (read ∪ write
executors); external, so an oracle. -/
abbrev ExecutorRegistry := ActionType → Option Executor

/-- `tools.execute_tool`: look up the executor for `action.type`, invoke
it with `action.payload`, and normalize the result:
a dict with a `success` key passes through; a dict without one becomes
`{success: false, error: error + ": " + details}`; a bare string becomes
`{success: true, output: s}`; any other shape or a missing executor
yields an error envelope.  The body has no `try/except`: an exception
raised by the executor propagates.  (The source's f-strings interpolate
the enum member and the Python type into the two error messages; the
modelled messages use the member's value string and a fixed text, which
no claim depends on.) -/
def execute_tool (executors : ExecutorRegistry) (action : ProposedAction) :
    Except PyExn PyDict := do
  match executors action.type with
  | none =>
      return [("success", .vBool false),
              ("error", .vStr ("No executor for action type: "
                ++ action.type.value))]
  | some executor =>
      let result ← executor action.payload
      match result with
      | .dict d =>
          if dictHasKey d "success" then
            return d
          else do
            let msg ← pyStrAdd (dictGetD d "error" (.vStr "Unknown error"))
                        (.vStr ": ")
            let msg ← pyStrAdd (.vStr msg) (dictGetD d "details" (.vStr ""))
            return [("success", .vBool false), ("error", .vStr msg)]
      | .str s =>
          return [("success", .vBool true), ("output", .vStr s)]
      | .other =>
          return [("success", .vBool false),
                  ("error", .vStr "Invalid result type")]

/-- `tools.execute_action`: dispatch via `execute_tool`; status
`executed` when `result.get("success", False)` is truthy, else `error`.
Defined in `tools.py` but imported by nothing in the repository:
`orchestrator.approve_action` imports `execute_action` from
`executors.py` instead, whose mismatched call raises `TypeError` — see
`executors_execute_action`.  This definition records the status mapping
that dead code intends. -/
def execute_action (executors : ExecutorRegistry) (action : ProposedAction) :
    Except PyExn ExecutionResult := do
  let result ← execute_tool executors action
  if (dictGetD result "success" (.vBool false)).truthy then
    return { action_id := action.id, status := .executed, result := result }
  else
    return { action_id := action.id, status := .error, result := result }

/-- `executors.execute_action` — the function `orchestrator.approve_action`
actually imports (`from .executors import execute_action`).  Its body
calls `execute_tool(action.type, action.payload)`, but
`tools.execute_tool` takes a single `ProposedAction` argument, so in
Python the call raises `TypeError` before any executor is reached; the
status-mapping lines after it are dead code. -/
def executors_execute_action (_action : ProposedAction) :
    Except PyExn ExecutionResult :=
  .error (.typeError
    "execute_tool() takes 1 positional argument but 2 were given")

/-! ## Tool-call parsing (`llm.py`) -/

/-- A LangChain tool call as consumed by `_parse_tool_call`: a `name`
and an `args` dict. -/
structure ToolCall where
  name : String
  args : PyDict
  deriving DecidableEq, Repr

/-- `llm._parse_tool_call`: copy the args, pop `confidence` (default
`0.7`) through `float(...)`, and resolve the tool name via
`ActionType(name)` (a `ValueError` for an unrecognized name). -/
def parse_tool_call (tc : ToolCall) :
    Except PyExn (ActionType × PyDict × Rat) := do
  let args := tc.args
  let confidence ← pyFloat (dictGetD args "confidence" (.vNum (7/10)))
  let args := dictErase args "confidence"
  let action_type ← ActionType.ofValue tc.name
  return (action_type, args, confidence)

/-! ## High-level context operations (`context_storage.py`) -/

/-- The embedding provider `embeddings.generate_embedding` (external;
an oracle). -/
abbrev EmbeddingOracle := String → Embedding

/-- `context_storage.search_similar_contexts`: embed the query text and
search.  (As with `save_context`, the `user_id` argument the source
passes does not reach the store's filter.) -/
def search_similar_contexts (q : QueryOracle) (emb : EmbeddingOracle)
    (s : QdrantStore) (query_text : String) (limit : Nat)
    (score_threshold : Option Rat := none)
    (source_type : Option SourceType := none) :
    List (ContextItem × Rat) :=
  QdrantVectorStore.search_similar q s (emb query_text) limit
    score_threshold source_type

/-- `context_storage.get_relevant_history`: semantic track
(`semantic_limit + 1` results, self filtered by id, truncated), recent
track (`recent_limit + semantic_limit + 1` processed contexts newest
first, minus self and the similar ids, truncated), each context paired
with its stored actions. -/
def get_relevant_history (q : QueryOracle) (emb : EmbeddingOracle)
    (s : QdrantStore) (db : ActionDb) (user_id : String)
    (current_context : ContextItem)
    (semantic_limit : Nat := 5) (recent_limit : Nat := 5) :
    List (ContextItem × List ProposedAction) ×
      List (ContextItem × List ProposedAction) :=
  let similar_results :=
    search_similar_contexts q emb s current_context.context_text
      (semantic_limit + 1)
  let similar_contexts :=
    ((similar_results.map Prod.fst).filter
      (fun ctx => ctx.id ≠ current_context.id)).take semantic_limit
  let recent_contexts_raw :=
    QdrantVectorStore.list_contexts s (recent_limit + semantic_limit + 1)
      none (some true) true
  let similar_ids := similar_contexts.map (fun ctx => ctx.id)
  let recent_contexts :=
    (recent_contexts_raw.filter
      (fun ctx => ctx.id ≠ current_context.id && !similar_ids.contains ctx.id)
    ).take recent_limit
  let similar_history := similar_contexts.map
    (fun ctx => (ctx, get_actions_for_context db user_id ctx.id))
  let recent_history := recent_contexts.map
    (fun ctx => (ctx, get_actions_for_context db user_id ctx.id))
  (similar_history, recent_history)

/-! ## Orchestrator (`orchestrator.py`) -/

/-- The mutable state the ingestion pipeline touches: the Qdrant
collection, the action store, and the action-id counter
(`get_next_action_id` is modelled from the spec: "id: unique, assigned
at creation (monotonic or DB-assigned)"). -/
structure PipelineState where
  store : QdrantStore
  db : ActionDb
  next_id : Int
  deriving DecidableEq, Repr

/-- How a lifecycle call ends when it does not return an action:
`ValueError(f"Action {action_id} not found")`, or an exception raised
inside `execute_action` propagating through `approve_action` (which has
no `try/except` around it). -/
inductive LifecycleErr where
  | notFound (action_id : Int)
  | raised (e : PyExn)
  deriving DecidableEq, Repr

deriving instance DecidableEq for Except

/-- Outcome of `approve_action` / `skip_action`: the returned action (or
error), the action store afterwards, and how many times the execution
dispatcher (`tools.execute_tool`) was invoked during the call (in the
source's approve path the dispatcher is never reached — see C4). -/
structure LifecycleOutcome where
  result : Except LifecycleErr ProposedAction
  db : ActionDb
  dispatched : Nat
  deriving DecidableEq, Repr

/-- `orchestrator.approve_action`: lookup via `storage.get_action`
(raising `ValueError(f"Action {action_id} not found")` when it misses),
no-op returning the record when
`action.status not in ("pending", "error")`, otherwise
`result = execute_action(action)` — the `executors.py` version, which
always raises `TypeError` (see `executors_execute_action`), so the
`update_action_status(action_id, result.status)` line below it is dead
code and the exception propagates (there is no `try/except`).  The
source signature takes only `action_id`; the owner reaches the storage
lookup through the ambient request context (`auth.get_current_user`
calls `set_current_user_id`, and `api.py` invokes this function with
`user_id=user.id`), modelled here as the explicit `user_id`
parameter. -/
def approve_action (db : ActionDb) (user_id : String) (action_id : Int) :
    LifecycleOutcome :=
  match get_action db user_id action_id with
  | none =>
      { result := .error (.notFound action_id)
        db := db
        dispatched := 0 }
  | some action =>
    if action.status = .pending ∨ action.status = .error then
      match executors_execute_action action with
      | .error e =>
          { result := .error (.raised e)
            db := db
            dispatched := 0 }
      | .ok result =>
          let updated := update_action_status db user_id action_id
            result.status
          { result := .ok (updated.2.getD action)
            db := updated.1
            dispatched := 1 }
    else
      { result := .ok action, db := db, dispatched := 0 }

/-- `orchestrator.skip_action`: owner-scoped lookup (raising the
not-found `ValueError` when it misses), then unconditionally
`update_action_status(action_id, "skipped")`, returning
`updated or action`.  The dispatcher is never invoked. -/
def skip_action (db : ActionDb) (user_id : String) (action_id : Int) :
    LifecycleOutcome :=
  match get_action db user_id action_id with
  | none => { result := .error (.notFound action_id), db := db, dispatched := 0 }
  | some action =>
    let updated := update_action_status db user_id action_id .skipped
    { result := .ok (updated.2.getD action), db := updated.1, dispatched := 0 }

/-! ## Runtime behavior of the broken ingestion path

The multi-tenant refactor left the ingestion pipeline unable to run:
these definitions model what the source actually does at runtime,
exceptions included, and back the code-bug evidence for C3 and C10. -/

/-- `_payload_to_context` as it behaves at runtime: the constructor call
passes no `user_id`, a required field of `ContextItem`, so pydantic
raises `ValidationError` on every conversion. -/
def payload_to_context_runtime (_p : QdrantPayload) :
    Except PyExn ContextItem :=
  .error (.validationError
    "1 validation error for ContextItem: user_id field required")

/-- `get_by_source_id` at runtime: a miss returns `None`; a hit calls
`_payload_to_context` and therefore raises. -/
def QdrantVectorStore.get_by_source_id_runtime (s : QdrantStore)
    (source_id : String) (source_type : Option SourceType := none) :
    Except PyExn (Option ContextItem) :=
  match (s.filter (sourceIdFilter source_id source_type)).head? with
  | none => .ok none
  | some p => (payload_to_context_runtime p.payload).map some

/-- `check_exist` at runtime: `false` on a miss, an uncaught
`ValidationError` on a hit. -/
def QdrantVectorStore.check_exist_runtime (s : QdrantStore)
    (source_id : String) (source_type : SourceType) :
    Except PyExn Bool := do
  let r ← QdrantVectorStore.get_by_source_id_runtime s source_id
    (some source_type)
  return r.isSome

/-- `context_storage.save_context` as the source actually behaves: the
orchestrator invokes it as `save_context(context)` — a `TypeError` for
the missing positional argument — and even a two-argument call dies at
`store.upsert(user_id, context, embedding)` against
`upsert(self, context, embedding)`.  Either way a `TypeError` is raised
and the store is never written. -/
def save_context_runtime (_s : QdrantStore) (_context : ContextItem) :
    Except PyExn QdrantStore :=
  .error (.typeError
    "save_context() missing 1 required positional argument: context")

/-- `get_relevant_history` as the orchestrator calls it
(`get_relevant_history(current_context=..., semantic_limit=...,
recent_limit=...)`): the required `user_id` positional is absent, a
`TypeError` before the body runs.  (The body's merge/filter logic is
embedded above as `get_relevant_history` for C6/C7.) -/
def get_relevant_history_runtime :
    Except PyExn (List (ContextItem × List ProposedAction) ×
      List (ContextItem × List ProposedAction)) :=
  .error (.typeError
    "get_relevant_history() missing 1 required positional argument: user_id")

/-- One iteration of `orchestrator._process_contexts` as the source
actually behaves: the dup check raises `ValidationError` whenever the
key is stored, and otherwise `save_context` raises `TypeError`; the
decision call, the action writes and `store.update_processed` below
those lines are unreachable. -/
def process_one_context_runtime (st : PipelineState) (c : ContextItem) :
    Except PyExn (PipelineState × List ProposedAction) := do
  let dup ← QdrantVectorStore.check_exist_runtime st.store c.source_id
    c.source_type
  if dup then
    return (st, [])
  else do
    let store1 ← save_context_runtime st.store c
    let _hist ← get_relevant_history_runtime
    -- unreachable: save_context_runtime above always raises
    return ({ st with store := store1 }, [])

/-- `orchestrator._process_contexts` over a list of incoming contexts:
the first raising iteration aborts the whole call. -/
def process_contexts_runtime (st : PipelineState)
    (contexts : List ContextItem) :
    Except PyExn (PipelineState × List ProposedAction) :=
  contexts.foldlM
    (fun acc context => do
      let step ← process_one_context_runtime acc.1 context
      return (step.1, acc.2 ++ step.2))
    (st, [])

/-! ## Shared helper lemmas -/

theorem contains_false_not_mem {α : Type} [BEq α] [LawfulBEq α]
    {l : List α} {a : α} (h : l.contains a = false) : a ∉ l := by
  intro hm
  have h2 : l.contains a = true := List.elem_iff.mpr hm
  rw [h2] at h
  exact absurd h (by decide)

theorem dictGet_dictErase_self (d : PyDict) (k : String) :
    dictGet (dictErase d k) k = none := by
  induction d with
  | nil => rfl
  | cons kv rest ih =>
      by_cases h : kv.1 = k
      · simp only [dictErase, dictGet, List.filter] at ih ⊢
        simp [h, ih]
      · simp only [dictErase, dictGet, List.filter] at ih ⊢
        simp [h, ih]

theorem contains_eq_false_of_not_mem {l : List String} {a : String}
    (h : a ∉ l) : l.contains a = false := by
  cases hc : l.contains a
  · rfl
  · exact absurd (List.elem_iff.mp hc) h

/-- Membership in `(l.filter p).take n` gives the filter predicate. -/
theorem pred_of_mem_take_filter {α : Type} {l : List α} {p : α → Bool}
    {n : Nat} {a : α} (h : a ∈ (l.filter p).take n) : p a = true :=
  List.of_mem_filter (List.take_subset n _ h)

/-! ## Fixtures for witnesses and counterexamples -/

/-- A trivial embedding oracle. -/
def embO : EmbeddingOracle := fun _ => []

/-- A registry with no executors. -/
def execsNone : ExecutorRegistry := fun _ => none

/-- A registry whose executors all return `{"success": True}`. -/
def execsOk : ExecutorRegistry :=
  fun _ => some (fun _ => .ok (.dict [("success", .vBool true)]))

/-- A registry whose executors all raise. -/
def execsRaise : ExecutorRegistry :=
  fun _ => some (fun _ => .error (.toolError "connection reset"))

/-- A context item owned by `"u2"`, source key `("m1", gmail)`. -/
def ctxU2 : ContextItem :=
  { id := "ctx-u2-1", source_type := .gmail, source_id := "m1",
    timestamp := 10, created_at := 11, user_id := "u2", content := [],
    context_text := "Hi, can we meet tomorrow?", sender := some "bob@x.com",
    summary := some "meeting request", processed := false }

/-- A fresh context owned by `"u1"`, source key `("m7", slack)`. -/
def ctxU1 : ContextItem :=
  { id := "ctx-u1-7", source_type := .slack, source_id := "m7",
    timestamp := 20, created_at := 21, user_id := "u1", content := [],
    context_text := "deploy is done", sender := some "alice",
    summary := some "deploy", processed := false }

/-- A pending action owned by `"u1"`. -/
def actPending : ProposedAction :=
  { id := 1, context_id := "ctx-u1-7", user_id := "u1", type := .create_todo,
    payload := [("title", .vStr "reply")], confidence := 7/10,
    status := .pending, source_type := .slack, sender := some "alice",
    summary := some "deploy", result := [] }

/-- An already-executed action owned by `"u1"`. -/
def actExecuted : ProposedAction :=
  { actPending with id := 2, status := .executed }

/-- An action in `error` status owned by `"u1"`. -/
def actErrored : ProposedAction :=
  { actPending with id := 3, status := .error }

/-- An action owned by `"u2"`. -/
def actOtherOwner : ProposedAction :=
  { actPending with id := 4, user_id := "u2" }

/-! ## C6: history self-exclusion -/

/-- C6: for every current context (including one already stored and
returned by the similarity search or the recent scan), the history
assembler `get_relevant_history` never includes the current context
itself — its id never occurs among the ids of the returned similar list
or the returned recent list, whatever the vector-index ranking oracle
returns. -/
theorem history_self_exclusion (q : QueryOracle) (emb : EmbeddingOracle)
    (s : QdrantStore) (db : ActionDb) (user_id : String)
    (current_context : ContextItem) (semantic_limit recent_limit : Nat) :
    (((get_relevant_history q emb s db user_id current_context semantic_limit
        recent_limit).1.map (fun h => h.1.id)).contains current_context.id
      = false) ∧
    (((get_relevant_history q emb s db user_id current_context semantic_limit
        recent_limit).2.map (fun h => h.1.id)).contains current_context.id
      = false) := by
  constructor
  · apply contains_eq_false_of_not_mem
    intro hmem
    simp only [get_relevant_history, List.map_map, List.mem_map,
      Function.comp] at hmem
    obtain ⟨c, hc, hid⟩ := hmem
    have hp := pred_of_mem_take_filter hc
    rw [hid] at hp
    simp at hp
  · apply contains_eq_false_of_not_mem
    intro hmem
    simp only [get_relevant_history, List.map_map, List.mem_map,
      Function.comp] at hmem
    obtain ⟨c, hc, hid⟩ := hmem
    have hp := pred_of_mem_take_filter hc
    rw [hid] at hp
    simp at hp

/-! ## C7: no cross-list duplication -/

/-- C7: in every `get_relevant_history` result the id sets of the
similar list and the recent list are disjoint — their list
intersection is empty, whatever the vector-index ranking oracle
returns. -/
theorem history_no_cross_duplication (q : QueryOracle) (emb : EmbeddingOracle)
    (s : QdrantStore) (db : ActionDb) (user_id : String)
    (current_context : ContextItem) (semantic_limit recent_limit : Nat) :
    ((get_relevant_history q emb s db user_id current_context semantic_limit
        recent_limit).1.map (fun h => h.1.id)) ∩
      ((get_relevant_history q emb s db user_id current_context semantic_limit
        recent_limit).2.map (fun h => h.1.id)) = [] := by
  rw [List.inter_eq_nil_iff_disjoint]
  intro x hx hy
  simp only [get_relevant_history, List.map_map, Function.comp_def] at hx hy
  obtain ⟨c, hc, hcx⟩ := List.mem_map.mp hy
  have hp := pred_of_mem_take_filter hc
  simp only [Bool.and_eq_true, Bool.not_eq_true'] at hp
  rw [hcx] at hp
  exact absurd hx (contains_false_not_mem hp.2)

/-! ## C9: tool-call parsing -/

theorem parse_tool_call_eq (tc : ToolCall) :
    parse_tool_call tc =
      match pyFloat (dictGetD tc.args "confidence" (.vNum (7/10))),
          ActionType.ofValue tc.name with
      | .ok c, .ok t => .ok (t, dictErase tc.args "confidence", c)
      | .error e, _ => .error e
      | .ok _, .error e => .error e := by
  cases hf : pyFloat (dictGetD tc.args "confidence" (.vNum (7/10))) <;>
    cases ha : ActionType.ofValue tc.name <;>
      simp only [parse_tool_call, hf, ha] <;> rfl

theorem ActionType.ofValue_ok {name : String} {t : ActionType}
    (h : ActionType.ofValue name = .ok t) : t.value = name := by
  unfold ActionType.ofValue at h
  cases hF : ActionType.members.find? (fun x => x.value = name) with
  | none => rw [hF] at h; exact absurd h (by simp)
  | some t' =>
      rw [hF] at h
      have hp := List.find?_some hF
      cases h
      exact of_decide_eq_true hp

/-- C9: for every model tool call, `_parse_tool_call` extracts
`confidence` into the returned triple (defaulting to `0.7` when the
argument is absent) and removes it from the payload, so a successful
parse never leaves a `confidence` key in the payload; the tool name is
mapped to the `ActionType` member with exactly that value, and a name
matching no `ActionType` value makes the parse a hard error. -/
theorem parse_tool_call_contract (tc : ToolCall) :
    (∀ t p c, parse_tool_call tc = .ok (t, p, c) →
      dictHasKey p "confidence" = false ∧ ActionType.value t = tc.name) ∧
    (dictGet tc.args "confidence" = none → ∀ t p c,
      parse_tool_call tc = .ok (t, p, c) → c = 7/10) ∧
    (ActionType.members.all (fun t => t.value ≠ tc.name) = true →
      ∃ e, parse_tool_call tc = .error e) := by
  refine ⟨?_, ?_, ?_⟩
  · intro t p c h
    rw [parse_tool_call_eq] at h
    cases hf : pyFloat (dictGetD tc.args "confidence" (.vNum (7/10))) with
    | error e => rw [hf] at h; exact absurd h (by simp)
    | ok conf =>
        cases ha : ActionType.ofValue tc.name with
        | error e => rw [hf, ha] at h; exact absurd h (by simp)
        | ok t' =>
            rw [hf, ha] at h
            simp only [Except.ok.injEq, Prod.mk.injEq] at h
            obtain ⟨ht, hp, _⟩ := h
            subst ht
            constructor
            · rw [← hp]
              simp [dictHasKey, dictGet_dictErase_self]
            · exact ActionType.ofValue_ok ha
  · intro habs t p c h
    rw [parse_tool_call_eq] at h
    have hd : dictGetD tc.args "confidence" (.vNum (7/10)) = .vNum (7/10) := by
      simp [dictGetD, habs]
    rw [hd] at h
    cases ha : ActionType.ofValue tc.name with
    | error e => rw [ha] at h; exact absurd h (by simp [pyFloat])
    | ok t' =>
        rw [ha] at h
        simp only [pyFloat, Except.ok.injEq, Prod.mk.injEq] at h
        exact h.2.2.symm
  · intro hall
    rw [parse_tool_call_eq]
    have hnone : ActionType.members.find? (fun x => x.value = tc.name)
        = none := by
      rw [List.find?_eq_none]
      intro x hx
      have := List.all_eq_true.mp hall x hx
      simpa using this
    cases hf : pyFloat (dictGetD tc.args "confidence" (.vNum (7/10))) with
    | error e => exact ⟨e, by simp⟩
    | ok conf =>
        refine ⟨.valueError (tc.name ++ " is not a valid ActionType"), ?_⟩
        simp [ActionType.ofValue, hnone]

/-- Witness for C9: a concrete `create_todo` call without a
`confidence` argument parses with the default `0.7`, a
`confidence`-free payload and the exact `ActionType`; a call with an
unknown name is a hard error. -/
theorem parse_tool_call_contract_witness :
    (dictHasKey (dictErase [("title", PyVal.vStr "x")] "confidence")
        "confidence" = false ∧
      ActionType.value .create_todo = "create_todo") ∧
    ((7 : Rat)/10 = 7/10) ∧
    (∃ e, parse_tool_call ⟨"fly_to_moon", []⟩ = .error e) :=
  ⟨(parse_tool_call_contract ⟨"create_todo", [("title", .vStr "x")]⟩).1
      .create_todo (dictErase [("title", .vStr "x")] "confidence") (7/10)
      (by rfl),
   (parse_tool_call_contract ⟨"create_todo", [("title", .vStr "x")]⟩).2.1
      (by rfl) .create_todo (dictErase [("title", .vStr "x")] "confidence")
      (7/10) (by rfl),
   (parse_tool_call_contract ⟨"fly_to_moon", []⟩).2.2 (by decide)⟩

/-! ## C8: dispatcher normalization -/

/-- C8 counterexample: `execute_tool` has no `try/except` around the
executor invocation, so an exception raised by a registered executor
(e.g. a connectivity failure) propagates to the caller instead of being
converted into an error envelope — refuting "never propagates an
exception to its caller" at a concrete action and registry. -/
theorem execute_tool_propagates_executor_exception :
    execute_tool execsRaise actPending =
      .error (.toolError "connection reset") := by
  rfl

/-- C8 (amended): for every action whose executor invocation returns a
value, `execute_tool` returns a uniform envelope — a dict with a
`success` key passes through unchanged, a dict without one becomes
`{success: false, error: error + ": " + details}` (when those fields
are strings), a bare string becomes `{success: true, output: s}`, and
any other result shape or an unregistered action type yields an error
envelope rather than a raised exception; however an exception raised by
the executor itself is not caught and propagates to the caller. -/
theorem exceptOkBind {α β : Type} (x : α) (f : α → Except PyExn β) :
    (Except.ok x : Except PyExn α) >>= f = f x := rfl

theorem exceptErrBind {α β : Type} (e : PyExn) (f : α → Except PyExn β) :
    (Except.error e : Except PyExn α) >>= f = Except.error e := rfl

theorem exceptOkMap {α β : Type} (f : α → β) (x : α) :
    f <$> (Except.ok x : Except PyExn α) = Except.ok (f x) := rfl

theorem exceptErrMap {α β : Type} (f : α → β) (e : PyExn) :
    f <$> (Except.error e : Except PyExn α) = Except.error e := rfl

theorem exceptPureEq {α : Type} (x : α) :
    (pure x : Except PyExn α) = Except.ok x := rfl

theorem execute_tool_normalization (executors : ExecutorRegistry)
    (a : ProposedAction) :
    (executors a.type = none →
      execute_tool executors a = .ok [("success", .vBool false),
        ("error", .vStr ("No executor for action type: " ++ a.type.value))]) ∧
    (∀ ex d, executors a.type = some ex → ex a.payload = .ok (.dict d) →
      dictHasKey d "success" = true → execute_tool executors a = .ok d) ∧
    (∀ ex d e1 e2, executors a.type = some ex → ex a.payload = .ok (.dict d) →
      dictHasKey d "success" = false →
      dictGetD d "error" (.vStr "Unknown error") = .vStr e1 →
      dictGetD d "details" (.vStr "") = .vStr e2 →
      execute_tool executors a =
        .ok [("success", .vBool false),
             ("error", .vStr ((e1 ++ ": ") ++ e2))]) ∧
    (∀ ex s, executors a.type = some ex → ex a.payload = .ok (.str s) →
      execute_tool executors a =
        .ok [("success", .vBool true), ("output", .vStr s)]) ∧
    (∀ ex, executors a.type = some ex → ex a.payload = .ok .other →
      execute_tool executors a =
        .ok [("success", .vBool false),
             ("error", .vStr "Invalid result type")]) ∧
    (∀ ex e, executors a.type = some ex → ex a.payload = .error e →
      execute_tool executors a = .error e) := by
  refine ⟨?_, ?_, ?_, ?_, ?_, ?_⟩
  · intro hnone
    simp [execute_tool, hnone, exceptPureEq]
  · intro ex d hex hres hkey
    simp [execute_tool, hex, hres, hkey, exceptOkBind, exceptPureEq]
  · intro ex d e1 e2 hex hres hkey he hd
    simp [execute_tool, hex, hres, hkey, he, hd, pyStrAdd, exceptOkBind,
      exceptOkMap, exceptPureEq]
  · intro ex s hex hres
    simp [execute_tool, hex, hres, exceptOkBind, exceptPureEq]
  · intro ex hex hres
    simp [execute_tool, hex, hres, exceptOkBind, exceptPureEq]
  · intro ex e hex hres
    simp [execute_tool, hex, hres, exceptErrBind]

/-- Witness for C8's amended theorem: concrete applications of each
normalization branch. -/
theorem execute_tool_normalization_witness :
    (execute_tool execsNone actPending = .ok [("success", .vBool false),
      ("error",
        .vStr ("No executor for action type: " ++ ActionType.create_todo.value))]) ∧
    (execute_tool execsOk actPending = .ok [("success", .vBool true)]) ∧
    (execute_tool (fun _ => some (fun _ =>
        .ok (.dict [("error", .vStr "boom"), ("details", .vStr "bad")])))
      actPending =
      .ok [("success", .vBool false),
           ("error", .vStr (("boom" ++ ": ") ++ "bad"))]) ∧
    (execute_tool (fun _ => some (fun _ => .ok (.str "sent"))) actPending =
      .ok [("success", .vBool true), ("output", .vStr "sent")]) ∧
    (execute_tool (fun _ => some (fun _ => .ok .other)) actPending =
      .ok [("success", .vBool false),
           ("error", .vStr "Invalid result type")]) ∧
    (execute_tool execsRaise actPending =
      .error (.toolError "connection reset")) :=
  ⟨(execute_tool_normalization execsNone actPending).1 rfl,
   (execute_tool_normalization execsOk actPending).2.1 _
      [("success", .vBool true)] rfl rfl rfl,
   (execute_tool_normalization _ actPending).2.2.1 _
      [("error", .vStr "boom"), ("details", .vStr "bad")] "boom" "bad"
      rfl rfl rfl rfl rfl,
   (execute_tool_normalization _ actPending).2.2.2.1 _ "sent" rfl rfl,
   (execute_tool_normalization _ actPending).2.2.2.2.1 _ rfl rfl,
   (execute_tool_normalization execsRaise actPending).2.2.2.2.2 _
      (.toolError "connection reset") rfl rfl⟩

/-! ## Action-store update lemmas -/

theorem find?_map_comm {α : Type} (l : List α) (p : α → Bool) (f : α → α)
    (hf : ∀ a, p (f a) = p a) :
    (l.map f).find? p = (l.find? p).map f := by
  induction l with
  | nil => rfl
  | cons a rest ih =>
      cases hp : p a with
      | true =>
          rw [List.map_cons, List.find?_cons_of_pos _ (by rw [hf]; exact hp),
            List.find?_cons_of_pos _ hp]
          rfl
      | false =>
          rw [List.map_cons,
            List.find?_cons_of_neg _ (by rw [hf, hp]; exact Bool.false_ne_true),
            List.find?_cons_of_neg _ (by rw [hp]; exact Bool.false_ne_true), ih]

theorem filter_map_of_pred_eq {α : Type} (l : List α) (q : α → Bool)
    (f : α → α) (hq : ∀ a, q (f a) = q a)
    (hid : ∀ a, q a = true → f a = a) :
    (l.map f).filter q = l.filter q := by
  induction l with
  | nil => rfl
  | cons a rest ih =>
      rw [List.map_cons, List.filter_cons, List.filter_cons, hq a]
      cases hqa : q a with
      | true => simp [hid a hqa, ih]
      | false => simp [ih]

theorem update_action_status_snd (db : ActionDb) (u : String) (i : Int)
    (st : ActionStatus) :
    (update_action_status db u i st).2 =
      (get_action db u i).map (fun a => { a with status := st }) := by
  have key := find?_map_comm db
    (fun a => a.id = i && a.user_id = u)
    (fun a => if a.id = i && a.user_id = u then { a with status := st } else a)
    (fun a => by
      dsimp only
      by_cases hc : ((a.id = i && a.user_id = u : Bool) = true)
      · rw [if_pos hc]
      · rw [if_neg hc])
  unfold get_action
  show (List.map
      (fun a =>
        if a.id = i && a.user_id = u then { a with status := st } else a)
      db).find? (fun a => a.id = i && a.user_id = u) = _
  rw [key]
  cases hfind : db.find? (fun a => a.id = i && a.user_id = u) with
  | none => rfl
  | some a =>
      have hp := List.find?_some hfind
      show some (if a.id = i && a.user_id = u then { a with status := st }
        else a) = some { a with status := st }
      rw [if_pos hp]

theorem update_action_status_user_filter (db : ActionDb) (u : String)
    (i : Int) (st : ActionStatus) :
    (update_action_status db u i st).1.filter (fun a => a.user_id ≠ u) =
      db.filter (fun a => a.user_id ≠ u) := by
  show (List.map
      (fun a =>
        if a.id = i && a.user_id = u then { a with status := st } else a)
      db).filter (fun a => a.user_id ≠ u) = _
  apply filter_map_of_pred_eq
  · intro a
    dsimp only
    by_cases hc : ((a.id = i && a.user_id = u : Bool) = true)
    · rw [if_pos hc]
    · rw [if_neg hc]
  · intro a hq
    have hu : ¬ a.user_id = u := by
      have := of_decide_eq_true hq
      exact this
    have hc : ¬ ((a.id = i && a.user_id = u : Bool) = true) := by
      simp [hu]
    rw [if_neg hc]

theorem get_action_user {db : ActionDb} {u : String} {i : Int}
    {a : ProposedAction} (h : get_action db u i = some a) : a.user_id = u := by
  have hp := List.find?_some h
  simp only [Bool.and_eq_true, decide_eq_true_eq] at hp
  exact hp.2

/-! ## C5: skip contract (corrected) -/

/-- C5 counterexample: skipping an action whose status is `executed`
(a terminal state) is not a no-op — `skip_action` has no terminal-state
guard and returns (and stores) the record with its status overwritten
to `skipped`. -/
theorem skip_executed_not_noop :
    actExecuted.status = ActionStatus.executed ∧
    (skip_action [actExecuted] "u1" 2).result =
      .ok { actExecuted with status := ActionStatus.skipped } ∧
    (skip_action [actExecuted] "u1" 2).result ≠ .ok actExecuted := by
  refine ⟨rfl, rfl, ?_⟩
  intro h
  have h2 := (rfl : (skip_action [actExecuted] "u1" 2).result =
      .ok { actExecuted with status := ActionStatus.skipped }).symm.trans h
  have h3 := congrArg ProposedAction.status (Except.ok.inj h2)
  exact absurd h3 (by decide)

/-- C5 (amended): `skip_action` never invokes the execution dispatcher
and raises the not-found error when the owner-scoped lookup misses;
when the lookup finds an action it unconditionally sets its status to
`skipped` — so a pending or error action becomes `skipped`, an
already-skipped action is returned unchanged, but an executed action is
also overwritten to `skipped` (the terminal-state no-op of the original
claim does not hold for `executed`). -/
theorem skip_contract (db : ActionDb) (user_id : String) (action_id : Int) :
    (skip_action db user_id action_id).dispatched = 0 ∧
    (get_action db user_id action_id = none →
      (skip_action db user_id action_id).result =
        .error (.notFound action_id)) ∧
    (∀ a, get_action db user_id action_id = some a →
      (skip_action db user_id action_id).result =
        .ok { a with status := .skipped }) := by
  refine ⟨?_, ?_, ?_⟩
  · unfold skip_action
    cases h : get_action db user_id action_id <;> rfl
  · intro h
    simp [skip_action, h]
  · intro a h
    simp [skip_action, h, update_action_status_snd]

/-- Witness for C5's amended theorem: a concrete pending action is
skipped (status becomes `skipped`), and the dispatcher count is zero. -/
theorem skip_contract_witness :
    (skip_action [actPending] "u1" 1).dispatched = 0 ∧
    (skip_action [actPending] "u1" 1).result =
      .ok { actPending with status := .skipped } :=
  ⟨(skip_contract [actPending] "u1" 1).1,
   (skip_contract [actPending] "u1" 1).2.2 actPending rfl⟩

/-! ## C4: approve contract (code bug) -/

/-- C4 (code-bug evidence): the terminal half of the claim holds —
approving an executed action returns it unchanged with the dispatcher
never invoked — but approving a pending or error action crashes instead
of executing: `approve_action` dispatches through
`executors.execute_action`, whose `execute_tool(action.type,
action.payload)` call raises `TypeError` against
`tools.execute_tool(action)`, so the dispatcher never runs, no status
transition ever occurs, and an `error` action cannot actually be
retried to `executed`. -/
theorem approve_dispatch_type_error :
    (approve_action [actExecuted] "u1" 2 =
      { result := .ok actExecuted
        db := [actExecuted]
        dispatched := 0 }) ∧
    (approve_action [actPending] "u1" 1 =
      { result := .error (.raised (.typeError
          "execute_tool() takes 1 positional argument but 2 were given"))
        db := [actPending]
        dispatched := 0 }) ∧
    (approve_action [actErrored] "u1" 3 =
      { result := .error (.raised (.typeError
          "execute_tool() takes 1 positional argument but 2 were given"))
        db := [actErrored]
        dispatched := 0 }) :=
  ⟨rfl, rfl, rfl⟩

/-! ## C2: owner isolation of the action lifecycle -/

/-- C2: when no action with the requested id exists for the calling
owner — whether the id is entirely absent or the action with that id
belongs to a different owner — `approve_action` and `skip_action` fail
with the same not-found error and leave the store untouched; moreover a
successful call only ever returns an action of the calling owner, and
neither call ever mutates another owner's rows. -/
theorem lifecycle_owner_isolation (db : ActionDb) (user_id : String)
    (action_id : Int) :
    (db.all (fun a => !(a.id = action_id && a.user_id = user_id)) = true →
      approve_action db user_id action_id =
        { result := .error (.notFound action_id)
          db := db
          dispatched := 0 } ∧
      skip_action db user_id action_id =
        { result := .error (.notFound action_id)
          db := db
          dispatched := 0 }) ∧
    (∀ a, (approve_action db user_id action_id).result = .ok a →
      a.user_id = user_id) ∧
    (∀ a, (skip_action db user_id action_id).result = .ok a →
      a.user_id = user_id) ∧
    ((approve_action db user_id action_id).db.filter
        (fun a => a.user_id ≠ user_id) =
      db.filter (fun a => a.user_id ≠ user_id)) ∧
    ((skip_action db user_id action_id).db.filter
        (fun a => a.user_id ≠ user_id) =
      db.filter (fun a => a.user_id ≠ user_id)) := by
  have owner_of_skip : ∀ a, (skip_action db user_id action_id).result =
      .ok a → a.user_id = user_id := by
    intro a h
    cases hga : get_action db user_id action_id with
    | none => simp [skip_action, hga] at h
    | some a0 =>
        have hu := get_action_user hga
        simp [skip_action, hga, update_action_status_snd] at h
        rw [← h]
        exact hu
  refine ⟨?_, ?_, owner_of_skip, ?_, ?_⟩
  · intro hall
    have hnone : get_action db user_id action_id = none := by
      unfold get_action
      rw [List.find?_eq_none]
      intro x hx
      have := List.all_eq_true.mp hall x hx
      simp only [Bool.not_eq_true'] at this
      simp [this]
    constructor
    · simp [approve_action, hnone]
    · simp [skip_action, hnone]
  · intro a h
    cases hga : get_action db user_id action_id with
    | none => simp [approve_action, hga] at h
    | some a0 =>
        have hu := get_action_user hga
        by_cases hc : (a0.status = ActionStatus.pending ∨
            a0.status = ActionStatus.error)
        · simp [approve_action, hga, hc, executors_execute_action] at h
        · simp [approve_action, hga, hc] at h
          rw [← h]
          exact hu
  · cases hga : get_action db user_id action_id with
    | none => simp [approve_action, hga]
    | some a0 =>
        by_cases hc : (a0.status = ActionStatus.pending ∨
            a0.status = ActionStatus.error)
        · simp [approve_action, hga, hc, executors_execute_action]
        · simp [approve_action, hga, hc]
  · cases hga : get_action db user_id action_id with
    | none => simp [skip_action, hga]
    | some a0 =>
        simp only [skip_action, hga]
        simpa using update_action_status_user_filter db user_id action_id
          .skipped

/-- Witness for C2: for a store holding only owner `"u2"`'s action with
id 4, owner `"u1"`'s approve and skip of id 4 fail with the not-found
error and leave the store untouched — exactly as for a nonexistent
id. -/
theorem lifecycle_owner_isolation_witness :
    approve_action [actOtherOwner] "u1" 4 =
      { result := .error (.notFound 4)
        db := [actOtherOwner]
        dispatched := 0 } ∧
    skip_action [actOtherOwner] "u1" 4 =
      { result := .error (.notFound 4)
        db := [actOtherOwner]
        dispatched := 0 } :=
  (lifecycle_owner_isolation [actOtherOwner] "u1" 4).1 (by rfl)

/-! ## C1: owner scoping of the dedup check -/

/-- A collection holding one point per context, written through the
store's own `upsert` (the operation a direct client call or an earlier
writer would use; `context_storage.save_context` itself cannot run —
see `save_context_runtime`). -/
def storeOfIngestions (emb : EmbeddingOracle) (h : List ContextItem) :
    QdrantStore :=
  h.foldl (fun s c => QdrantVectorStore.upsert s c (emb c.context_text)) []

/-- C1 (code-bug evidence): `get_by_source_id` and `check_exist` carry
no owner condition — `_context_to_payload` does not even store the
context's `user_id` — so the dedup answer for owner `"u1"` is changed by
a row ingested by owner `"u2"`: with only `"u2"`'s row stored,
`check_exist("m1", gmail)` is `true` although owner `"u1"`'s own
ingestions (the filtered run) give `false`, and the lookup returns
`"u2"`'s context with its owner lost. -/
theorem check_exist_cross_owner_leak :
    ctxU2.user_id = "u2" ∧
    QdrantVectorStore.check_exist (storeOfIngestions embO [ctxU2]) "m1"
      SourceType.gmail = true ∧
    QdrantVectorStore.check_exist
      (storeOfIngestions embO ([ctxU2].filter (fun c => c.user_id = "u1")))
      "m1" SourceType.gmail = false ∧
    QdrantVectorStore.get_by_source_id (storeOfIngestions embO [ctxU2]) "m1"
      (some SourceType.gmail) = some { ctxU2 with user_id := "" } :=
  ⟨rfl, rfl, rfl, rfl⟩

/-! ## C3: dedup idempotence of ingestion (code bug) -/

/-- C3 (code-bug evidence): the ingestion loop cannot perform the
claimed clean duplicate skip, nor keep stored contexts at one per key:
with the `("m1", gmail)` key already stored, processing `ctxU2` again
raises `ValidationError` inside `check_exist`; processing the fresh
`ctxU1` on the empty store raises `TypeError` at `save_context`; and
ingesting the same item twice aborts on the first item already — the
store is never written at all, rather than written at most once per
key. -/
theorem ingestion_dedup_crashes :
    (process_one_context_runtime
      { store := QdrantVectorStore.upsert [] ctxU2 [], db := [],
        next_id := 0 } ctxU2 =
      .error (.validationError
        "1 validation error for ContextItem: user_id field required")) ∧
    (process_one_context_runtime { store := [], db := [], next_id := 0 }
      ctxU1 =
      .error (.typeError
        "save_context() missing 1 required positional argument: context")) ∧
    (process_contexts_runtime { store := [], db := [], next_id := 0 }
      [ctxU1, ctxU1] =
      .error (.typeError
        "save_context() missing 1 required positional argument: context")) :=
  ⟨rfl, rfl, rfl⟩

/-! ## C10: processed flag after ingestion (code bug) -/

/-- C10 (code-bug evidence): a context that passes the dedup check —
the check completes with `false` on the empty store — never reaches
`store.update_processed`: its iteration raises `TypeError` at
`save_context` first, so no context is ever stored, let alone marked
`processed = true` for the recent-history query. -/
theorem processed_flag_never_set :
    (QdrantVectorStore.check_exist_runtime ([] : QdrantStore)
      ctxU1.source_id ctxU1.source_type = .ok false) ∧
    (process_one_context_runtime { store := [], db := [], next_id := 0 }
      ctxU1 =
      .error (.typeError
        "save_context() missing 1 required positional argument: context")) :=
  ⟨rfl, rfl⟩
